import Mathlib

/-!
Verification of the `gif_tools` repository (two Python scripts,
`gif_creator.py` and `gif_looper.py`) against its specification.

The scripts are thin orchestration over external media libraries.  We embed
their decision logic shallowly:

* the filesystem is a predicate `fs : String → Bool` (existence of a path);
* the video library is an oracle `media : String → Clip` giving the native
  pixel dimensions of the clip decoded from a path; decode/encode calls are
  modelled as succeeding unless a failure is injected at an explicit
  `FailPoint`, which models the `except Exception` paths of the script;
* Python floats `0.5`, `0.7`, `1.0` (the resize factors) are modelled as the
  exact rationals `1/2`, `7/10`, `1/1`, and Python's `int(...)` truncation of
  a non-negative value as `Nat` division (floor);
* the PIL animated-image handle is a record listing its frames, each frame
  carrying an abstract content tag and the optional `duration` entry of its
  info dictionary.
-/

namespace GifTools

/-! ## `gif_creator.py`: input validation (`convert_mp4_to_gif`, lines 44-55) -/

/-- Model of `path.lower().endswith('.mp4')` (line 49): lowercase every
character, then test for the suffix `.mp4`.  `Char.toLower` agrees with
Python's `str.lower` on ASCII, which is all the suffix test can depend on. -/
def lowerEndsWithMp4 (p : String) : Bool :=
  List.isSuffixOf ".mp4".data (p.data.map Char.toLower)

/-- Model of the validation loop, lines 44-52: a path is kept exactly when it
exists on disk and (lowercased) ends with `.mp4`; every other path is skipped
with a printed warning. -/
def validPaths (fs : String → Bool) (input_paths : List String) : List String :=
  input_paths.filter (fun p => fs p && lowerEndsWithMp4 p)

/-! ## `gif_creator.py`: quality presets and fps resolution (lines 67-80) -/

/-- The `quality_settings` dictionary, lines 68-72.  Each preset maps to its
fps and its resize factor, the latter given as an exact rational
numerator/denominator pair (`0.5 = 1/2`, `0.7 = 7/10`, `1.0 = 1/1`). -/
def quality_settings (q : String) : Option (Int × Nat × Nat) :=
  if q = "low" then some (8, 1, 2)
  else if q = "medium" then some (10, 7, 10)
  else if q = "high" then some (15, 1, 1)
  else none

/-- Lines 74-80: when the quality string is a known preset, the preset fps
replaces the `fps` argument only when that argument equals 10 (the CLI
default); otherwise the argument is kept. -/
def resolveFps (quality : String) (fps : Int) : Int :=
  match quality_settings quality with
  | some (presetFps, _, _) => if fps = 10 then presetFps else fps
  | none => fps

/-- Lines 74-80: the resize factor comes from the preset when the quality
string is recognised, and falls back to `0.7` otherwise; the `fps` argument
plays no part in it. -/
def resolveFactor (quality : String) : Nat × Nat :=
  match quality_settings quality with
  | some (_, n, d) => (n, d)
  | none => (7, 10)

/-! ## `gif_creator.py`: target geometry (lines 100-112) -/

/-- Lines 110-111: `new_width if new_width % 2 == 0 else new_width - 1`. -/
def makeEven (n : Nat) : Nat :=
  if n % 2 = 0 then n else n - 1

/-- A decoded video clip, reduced to the fields the control flow reads.  The
script also reads `duration` and `fps`, but only to print progress lines, so
they are omitted from the model. -/
structure Clip where
  width : Nat
  height : Nat
deriving DecidableEq, Repr

/-- Lines 100-112, executed only for the first clip (`i == 1`): the target
size is the requested width with proportionally scaled height when a truthy
`width` was given, else the native size times the resize factor; both
dimensions are then forced even.  Python's `int()` of the non-negative float
products is modelled as `Nat` division. -/
def computeTarget (first : Clip) (width : Option Nat) (fnum fden : Nat) : Nat × Nat :=
  let raw :=
    match width with
    | some w =>
      if w ≠ 0 then (w, w * first.height / first.width)
      else (first.width * fnum / fden, first.height * fnum / fden)
    | none => (first.width * fnum / fden, first.height * fnum / fden)
  (makeEven raw.1, makeEven raw.2)

/-- Lines 100-122 as seen by the geometry: the loop computes the target size
once, at the first clip, and every clip is appended either resized to the
target (when its native size differs, line 118) or unchanged (when it already
matches).  The result lists the size of each appended clip. -/
def processClips (clips : List Clip) (width : Option Nat) (fnum fden : Nat) :
    List (Nat × Nat) :=
  match clips with
  | [] => []
  | first :: rest =>
    let tgt := computeTarget first width fnum fden
    (first :: rest).map (fun c => if (c.width, c.height) ≠ tgt then tgt else (c.width, c.height))

/-! ## `gif_creator.py`: resource lifecycle of `convert_mp4_to_gif` (lines 82-166)

Each Python clip object is a handle: `Handle.orig i` is the `VideoFileClip`
opened for the `i`-th valid path (1-based, as in `enumerate(..., 1)`),
`Handle.resized i` the clip returned by `clip.resized(...)` for it, and
`Handle.concatd` the clip returned by `concatenate_videoclips`.  A run may
have one library failure injected at a `FailPoint`, standing for the
arbitrary exception the `try`/`except` of lines 82-166 guards against. -/

/-- A media clip handle created during a run of `convert_mp4_to_gif`. -/
inductive Handle where
  | orig (i : Nat)
  | resized (i : Nat)
  | concatd
deriving DecidableEq, Repr

/-- Where the single injected library failure strikes: when opening the
`i`-th clip (line 91), when resizing it (line 119), when concatenating
(line 132), or when writing the GIF (line 136). -/
inductive FailPoint where
  | load (i : Nat)
  | resize (i : Nat)
  | concat
  | write
deriving DecidableEq, Repr

/-- Outcome of `convert_mp4_to_gif`: the `FileNotFoundError` of line 55, the
re-raised wrapped exception of line 166, or a normal return. -/
inductive ConvResult where
  | errNoValidInput
  | errWrapped
  | ok
deriving DecidableEq, Repr

/-- Observable trace of one run: every handle opened, every handle that had
`close()` called on it, whether the output file was written, and the
routine's outcome. -/
structure ConvRun where
  opened : List Handle
  closed : List Handle
  written : Bool
  result : ConvResult
deriving DecidableEq, Repr

/-- The loading loop, lines 89-122, for the clips numbered from `i`: returns
the handles appended to `video_clips`, all handles opened, and whether the
loop completed without the injected failure.  A clip whose size differs from
the target is resized — opening a second handle — and only the resized handle
enters `video_clips` (lines 117-122); on the failure paths the in-flight
handles opened so far are still reported as opened. -/
def loadClips (target : Nat × Nat) (failAt : Option FailPoint) :
    Nat → List Clip → List Handle × List Handle × Bool
  | _, [] => ([], [], true)
  | i, c :: rest =>
    if failAt = some (.load i) then ([], [], false)
    else if (c.width, c.height) ≠ target then
      if failAt = some (.resize i) then ([], [Handle.orig i], false)
      else
        let r := loadClips target failAt (i + 1) rest
        (Handle.resized i :: r.1, Handle.orig i :: Handle.resized i :: r.2.1, r.2.2)
    else
      let r := loadClips target failAt (i + 1) rest
      (Handle.orig i :: r.1, Handle.orig i :: r.2.1, r.2.2)

/-- `convert_mp4_to_gif`, lines 44-166, as a handle trace.  Validation
(lines 44-55) runs before any media is opened; the `except` block
(lines 159-166) closes exactly the members of `video_clips`; the success path
(lines 142-146) closes the members of `video_clips` and, only when more than
one clip was loaded, the concatenated clip. -/
def convert_mp4_to_gif (fs : String → Bool) (media : String → Clip)
    (inputs : List String) (width : Option Nat) (quality : String)
    (failAt : Option FailPoint) : ConvRun :=
  match validPaths fs inputs with
  | [] => ⟨[], [], false, .errNoValidInput⟩
  | p :: ps =>
    let clips := (p :: ps).map media
    let target :=
      computeTarget (media p) width (resolveFactor quality).1 (resolveFactor quality).2
    let r := loadClips target failAt 1 clips
    if r.2.2 = false then ⟨r.2.1, r.1, false, .errWrapped⟩
    else if r.1.length = 1 then
      if failAt = some .write then ⟨r.2.1, r.1, false, .errWrapped⟩
      else ⟨r.2.1, r.1, true, .ok⟩
    else
      if failAt = some .concat then ⟨r.2.1, r.1, false, .errWrapped⟩
      else if failAt = some .write then ⟨r.2.1 ++ [Handle.concatd], r.1, false, .errWrapped⟩
      else ⟨r.2.1 ++ [Handle.concatd], r.1 ++ [Handle.concatd], true, .ok⟩

/-! ## `gif_creator.py`: glob expansion in `main` (lines 214-224) -/

/-- Model of Python's `sorted` on strings.  Python sorts by code points, the
order of `LinearOrder String`; since that order is total and antisymmetric,
every sorted permutation of a list is the same list, so insertion sort agrees
with Python's stable sort. -/
def sortStrings (l : List String) : List String :=
  l.insertionSort (· ≤ ·)

/-- Model of `'*' in pattern or '?' in pattern` (line 217). -/
def hasGlobMeta (pattern : String) : Bool :=
  pattern.data.contains '*' || pattern.data.contains '?'

/-- Lines 214-224: each input containing a glob metacharacter is replaced by
its sorted matches when there are any (a matchless pattern only warns); a
plain input is appended unchanged.  `globFn` is the filesystem's
`glob.glob`, returning matches in enumeration order. -/
def expandInputs (globFn : String → List String) (inputs : List String) : List String :=
  inputs.foldl
    (fun acc pat =>
      if hasGlobMeta pat then
        if globFn pat ≠ [] then acc ++ sortStrings (globFn pat) else acc
      else acc ++ [pat])
    []

/-! ## `gif_looper.py`: output path derivation (lines 38-41)

`os.path.splitext` splits off the extension at the last dot of the final path
component, provided some earlier character of that component is not a dot
(so `.bashrc` has no extension).  We model the posix variant over the
character list of the path. -/

/-- Index of the last occurrence of `c` in `s`, or `-1` when absent —
Python's `str.rfind`. -/
def rfindChar (c : Char) (s : List Char) : Int :=
  (s.foldl
    (fun (acc : Int × Nat) x =>
      (if x = c then (acc.2 : Int) else acc.1, acc.2 + 1))
    (-1, 0)).1

/-- Length of the root part produced by `os.path.splitext`: the position of
the extension dot when there is one, else the whole length. -/
def splitextRootLen (p : List Char) : Nat :=
  let sepIndex := rfindChar '/' p
  let dotIndex := rfindChar '.' p
  if dotIndex > sepIndex ∧
      (List.range p.length).any
        (fun j => decide (sepIndex < (j : Int) ∧ (j : Int) < dotIndex) && p.getD j '.' ≠ '.')
  then dotIndex.toNat
  else p.length

/-- `os.path.splitext(p)[0]`. -/
def splitextRoot (p : String) : String :=
  ⟨p.data.take (splitextRootLen p.data)⟩

/-- `os.path.splitext(p)[1]` — the extension, dot included (possibly empty). -/
def splitextExt (p : String) : String :=
  ⟨p.data.drop (splitextRootLen p.data)⟩

/-- Lines 39-41 of `gif_looper.py`: the default output path is
`os.path.splitext(input_path)[0] + "_looped.gif"`. -/
def derivedOutputPath (input_path : String) : String :=
  splitextRoot input_path ++ "_looped.gif"

/-- Modelled from the spec's words, for comparison with `derivedOutputPath`:
"output path is the input path with a fixed suffix inserted before the
input's file extension (the input's own extension is preserved after the
suffix)". -/
def specDerivedOutputPath (input_path : String) : String :=
  splitextRoot input_path ++ "_looped" ++ splitextExt input_path

/-! ## `gif_looper.py`: frame extraction and rewriting (`make_gif_loop`) -/

/-- One frame of an animated image: an abstract content tag and the optional
`duration` entry (milliseconds) of the frame's info dictionary. -/
structure GifFrame where
  content : Nat
  duration : Option Nat
deriving DecidableEq, Repr

/-- A PIL animated-image handle: declared format, frame sequence, and the
optional loop-count metadata (0 meaning infinite repeat). -/
structure AnimImage where
  format : String
  frames : List GifFrame
  loopCount : Option Nat
deriving DecidableEq, Repr

/-- The extraction loop, lines 54-68: starting at frame 0, copy the current
frame, read `img.info.get('duration', 100)`, and `seek` forward until
`EOFError` ends the loop normally.  Every frame is visited once, in order, so
the loop returns each frame's content paired with its duration defaulted to
100 ms. -/
def extractFrames (img : AnimImage) : List (Nat × Nat) :=
  img.frames.map (fun f => (f.content, f.duration.getD 100))

/-- The animated image written by `frames[0].save(...)`, lines 71-79: all
frames with their durations, and an explicit loop count. -/
structure WrittenGif where
  path : String
  frames : List (Nat × Nat)
  loopCount : Nat
deriving DecidableEq, Repr

/-- Outcome of `make_gif_loop`: the `FileNotFoundError` of line 36, the
wrapped exception of line 91 (which is how the `ValueError("No frames
found")` of line 88 leaves the routine), or a normal return. -/
inductive LoopResult where
  | errFileNotFound
  | errProcessing
  | ok
deriving DecidableEq, Repr

/-- Observable outcome of one run of `make_gif_loop`: what was written (if
anything) and how the routine ended. -/
structure LoopRun where
  written : Option WrittenGif
  result : LoopResult
deriving DecidableEq, Repr

/-- `make_gif_loop`, lines 23-91: existence check, output-path derivation,
frame extraction, then either the save call (with `loop=0`, on the full
assembled frame list) or the empty-input failure.  `imgOf` is the image
decoded by `Image.open` from a path. -/
def make_gif_loop (fs : String → Bool) (imgOf : String → AnimImage)
    (input_path : String) (output_path : Option String) : LoopRun :=
  if fs input_path = false then ⟨none, .errFileNotFound⟩
  else
    let outPath := output_path.getD (derivedOutputPath input_path)
    let extracted := extractFrames (imgOf input_path)
    if extracted = [] then ⟨none, .errProcessing⟩
    else ⟨some ⟨outPath, extracted, 0⟩, .ok⟩

/-- The CLI wrapper `main`, lines 118-130: exit status 0 on success, 1 when
`make_gif_loop` raises. -/
def looperMain (fs : String → Bool) (imgOf : String → AnimImage)
    (input_path : String) (output_path : Option String) : Nat :=
  match (make_gif_loop fs imgOf input_path output_path).result with
  | .ok => 0
  | _ => 1

/-- Reading back a GIF written by `make_gif_loop`: every frame carries the
duration that was saved for it, and the loop-count metadata is the saved
one. -/
def outputToImage (w : WrittenGif) : AnimImage :=
  ⟨"GIF", w.frames.map (fun pr => ⟨pr.1, some pr.2⟩), some w.loopCount⟩

/-! ## Helper lemmas -/

/-- `makeEven` always yields an even number. -/
theorem makeEven_even (n : Nat) : Even (makeEven n) := by
  unfold makeEven
  split
  · exact Nat.even_iff.2 (by assumption)
  · have h : ¬ n % 2 = 0 := by assumption
    exact Nat.even_iff.2 (by omega)

/-- `makeEven` never increases its argument. -/
theorem makeEven_le (n : Nat) : makeEven n ≤ n := by
  unfold makeEven
  split <;> omega

/-- Truncated scaling is bounded by the exact rational product. -/
theorem nat_scale_le (a fn fd : Nat) :
    ((a * fn / fd : Nat) : ℚ) ≤ (a : ℚ) * ((fn : ℚ) / (fd : ℚ)) := by
  calc ((a * fn / fd : Nat) : ℚ) ≤ ((a * fn : Nat) : ℚ) / (fd : ℚ) := Nat.cast_div_le
    _ = (a : ℚ) * ((fn : ℚ) / (fd : ℚ)) := by push_cast; ring

/-- Every size produced by the resize loop equals the target computed from
the first clip. -/
theorem processClips_all_eq (first : Clip) (rest : List Clip) (width : Option Nat)
    (fn fd : Nat) :
    ∀ s ∈ processClips (first :: rest) width fn fd, s = computeTarget first width fn fd := by
  intro s hs
  simp only [processClips, List.mem_map] at hs
  obtain ⟨c, _, hcs⟩ := hs
  by_cases h : (c.width, c.height) = computeTarget first width fn fd
  · simp only [h, ne_eq, not_true_eq_false, if_false] at hcs
    rw [← hcs]
  · simp only [ne_eq, h, not_false_eq_true, if_true] at hcs
    exact hcs.symm

/-- Without an injected failure the loading loop always completes. -/
theorem loadClips_none_ok (target : Nat × Nat) (clips : List Clip) :
    ∀ i, (loadClips target none i clips).2.2 = true := by
  induction clips with
  | nil => intro i; rfl
  | cons c rest ih =>
    intro i
    have h := ih (i + 1)
    by_cases hsz : (c.width, c.height) ≠ target <;>
      simp [loadClips, hsz, h]

/-! ## Claim theorems -/

/-- C3: for each recognised quality preset the converter uses the preset's
frame rate exactly when the `fps` argument is the CLI default 10, keeps any
other `fps` argument as given, and takes the preset's resize factor
independently of `fps`. -/
theorem claim_C3 (fps : Int) :
    resolveFps "low" fps = (if fps = 10 then 8 else fps) ∧
    resolveFps "medium" fps = (if fps = 10 then 10 else fps) ∧
    resolveFps "high" fps = (if fps = 10 then 15 else fps) ∧
    resolveFactor "low" = (1, 2) ∧
    resolveFactor "medium" = (7, 10) ∧
    resolveFactor "high" = (1, 1) := by
  refine ⟨?_, ?_, ?_, rfl, rfl, rfl⟩ <;> rfl

/-- C10: the extension filter is case-insensitive — any input path that
exists and whose lowercased name ends in `.mp4` is accepted as valid. -/
theorem claim_C10 (fs : String → Bool) (inputs : List String) (p : String)
    (hin : p ∈ inputs) (hfs : fs p = true) (hext : lowerEndsWithMp4 p = true) :
    p ∈ validPaths fs inputs := by
  simp [validPaths, List.mem_filter, hin, hfs, hext]

/-- Witness for C10 at the upper-case path `clip.MP4`. -/
theorem claim_C10_witness :
    ("clip.MP4" ∈ ["other.txt", "clip.MP4"] ∧
      (fun q => q == "clip.MP4") "clip.MP4" = true ∧
      lowerEndsWithMp4 "clip.MP4" = true) ∧
    "clip.MP4" ∈ validPaths (fun q => q == "clip.MP4") ["other.txt", "clip.MP4"] :=
  ⟨by decide, claim_C10 _ _ _ (by decide) (by decide) (by decide)⟩

/-- C4: each extracted frame is paired with its declared duration, defaulting
to 100 ms when the metadata lacks a duration; with every duration missing,
the output has one 100 ms entry per input frame. -/
theorem claim_C4 (img : AnimImage) :
    (extractFrames img).length = img.frames.length ∧
    (∀ i : Nat, (extractFrames img)[i]? =
      (img.frames[i]?).map (fun f => (f.content, f.duration.getD 100))) ∧
    ((∀ f ∈ img.frames, f.duration = none) →
      (extractFrames img).length = img.frames.length ∧
      ∀ pr ∈ extractFrames img, pr.2 = 100) := by
  refine ⟨List.length_map _ _, fun i => List.getElem?_map _ _ _, fun hall => ⟨List.length_map _ _, ?_⟩⟩
  intro pr hpr
  simp only [extractFrames, List.mem_map] at hpr
  obtain ⟨f, hf, rfl⟩ := hpr
  rw [hall f hf]
  rfl

/-- Witness for C4: 20 frames, all without duration metadata, extract as 20
frames of 100 ms each. -/
theorem claim_C4_witness :
    (∀ f ∈ (AnimImage.mk "GIF" (List.replicate 20 ⟨0, none⟩) none).frames, f.duration = none) ∧
    ((extractFrames ⟨"GIF", List.replicate 20 ⟨0, none⟩, none⟩).length = 20 ∧
      ∀ pr ∈ extractFrames ⟨"GIF", List.replicate 20 ⟨0, none⟩, none⟩, pr.2 = 100) := by
  refine ⟨by decide, ?_, ((claim_C4 ⟨"GIF", List.replicate 20 ⟨0, none⟩, none⟩).2.2 (by decide)).2⟩
  have h := ((claim_C4 ⟨"GIF", List.replicate 20 ⟨0, none⟩, none⟩).2.2 (by decide)).1
  simpa using h

/-- C7 (code bug): at a run with two valid 640×480 inputs, default options,
where the GIF write raises, the concatenated clip was opened but the
`except` cleanup closes only the members of `video_clips`, so the
concatenated clip (and each original clip that was resized) is never
closed. -/
theorem claim_C7_bug :
    (Handle.concatd ∈ (convert_mp4_to_gif (fun p => p == "a.mp4" || p == "b.mp4")
        (fun _ => ⟨640, 480⟩) ["a.mp4", "b.mp4"] none "medium" (some .write)).opened ∧
      Handle.concatd ∉ (convert_mp4_to_gif (fun p => p == "a.mp4" || p == "b.mp4")
        (fun _ => ⟨640, 480⟩) ["a.mp4", "b.mp4"] none "medium" (some .write)).closed) ∧
    (Handle.orig 1 ∈ (convert_mp4_to_gif (fun p => p == "a.mp4" || p == "b.mp4")
        (fun _ => ⟨640, 480⟩) ["a.mp4", "b.mp4"] none "medium" (some .write)).opened ∧
      Handle.orig 1 ∉ (convert_mp4_to_gif (fun p => p == "a.mp4" || p == "b.mp4")
        (fun _ => ⟨640, 480⟩) ["a.mp4", "b.mp4"] none "medium" (some .write)).closed) ∧
    (convert_mp4_to_gif (fun p => p == "a.mp4" || p == "b.mp4")
        (fun _ => ⟨640, 480⟩) ["a.mp4", "b.mp4"] none "medium" (some .write)).result
      = .errWrapped := by decide

/-- C8 (counterexample): for the input `anim.png` the script derives
`anim_looped.gif`, not the spec-described `anim_looped.png` — the input's
own extension is replaced by `.gif`, not preserved after the suffix. -/
theorem claim_C8_counterexample :
    derivedOutputPath "anim.png" = "anim_looped.gif" ∧
    specDerivedOutputPath "anim.png" = "anim_looped.png" ∧
    derivedOutputPath "anim.png" ≠ specDerivedOutputPath "anim.png" := by decide

/-- C8 (amended): the derived output path is the input with its extension
removed and the fixed `_looped.gif` appended; this inserts the suffix before
a preserved extension exactly when the input's extension is `.gif`. -/
theorem claim_C8_amended (p : String) (hext : splitextExt p = ".gif") :
    derivedOutputPath p = specDerivedOutputPath p := by
  have h : ("_looped" : String) ++ ".gif" = "_looped.gif" := by decide
  rw [derivedOutputPath, specDerivedOutputPath, hext, String.append_assoc, h]

/-- Witness for the amended C8 at the input `anim.gif`. -/
theorem claim_C8_amended_witness :
    splitextExt "anim.gif" = ".gif" ∧
    derivedOutputPath "anim.gif" = specDerivedOutputPath "anim.gif" :=
  ⟨by decide, claim_C8_amended "anim.gif" (by decide)⟩

/-- Unfolding of the glob-expansion fold: each input contributes its sorted
matches (when it is a pattern) or itself (when it is a plain path), in
command-line order. -/
theorem expandInputs_flatMap (globFn : String → List String) :
    ∀ (inputs : List String) (acc : List String),
      inputs.foldl
          (fun acc pat =>
            if hasGlobMeta pat then
              if globFn pat ≠ [] then acc ++ sortStrings (globFn pat) else acc
            else acc ++ [pat])
          acc
        = acc ++ inputs.flatMap
            (fun pat => if hasGlobMeta pat then sortStrings (globFn pat) else [pat])
  | [], acc => by simp
  | pat :: rest, acc => by
    rw [List.foldl_cons, List.flatMap_cons, expandInputs_flatMap globFn rest]
    by_cases hm : hasGlobMeta pat
    · by_cases hg : globFn pat = []
      · simp [hm, hg, sortStrings, List.insertionSort]
      · simp [hm, hg, List.append_assoc]
    · simp [hm, List.append_assoc]

/-- C9: glob patterns among the video tool's inputs expand, in place, to
their matches in lexicographically sorted order — a sorted permutation of
whatever enumeration order the filesystem returned — while plain inputs keep
their command-line position. -/
theorem claim_C9 (globFn : String → List String) (inputs : List String) :
    expandInputs globFn inputs =
      inputs.flatMap
        (fun pat => if hasGlobMeta pat then sortStrings (globFn pat) else [pat]) ∧
    (∀ pat, List.Sorted (· ≤ ·) (sortStrings (globFn pat))) ∧
    (∀ pat, (sortStrings (globFn pat)).Perm (globFn pat)) :=
  ⟨expandInputs_flatMap globFn inputs [], fun pat => List.sorted_insertionSort _ _,
    fun pat => List.perm_insertionSort _ _⟩

/-- C1: a candidate input is processed exactly when it exists and (after
lowercasing) ends in `.mp4`; with no valid path left the converter raises
`FileNotFoundError` having opened no media and written nothing; with at
least one valid path and no library failure the conversion succeeds. -/
theorem claim_C1 (fs : String → Bool) (media : String → Clip)
    (inputs : List String) (width : Option Nat) (quality : String) :
    (∀ p, p ∈ validPaths fs inputs ↔
      p ∈ inputs ∧ fs p = true ∧ lowerEndsWithMp4 p = true) ∧
    (validPaths fs inputs = [] → ∀ failAt,
      convert_mp4_to_gif fs media inputs width quality failAt
        = ⟨[], [], false, .errNoValidInput⟩) ∧
    (validPaths fs inputs ≠ [] →
      (convert_mp4_to_gif fs media inputs width quality none).result = .ok) := by
  refine ⟨?_, ?_, ?_⟩
  · intro p
    simp [validPaths, List.mem_filter, and_assoc]
  · intro hempty failAt
    unfold convert_mp4_to_gif
    rw [hempty]
  · intro hne
    obtain ⟨p, ps, heq⟩ := List.exists_cons_of_ne_nil hne
    unfold convert_mp4_to_gif
    rw [heq]
    have hok := loadClips_none_ok
      (computeTarget (media p) width (resolveFactor quality).1 (resolveFactor quality).2)
      ((p :: ps).map media) 1
    rw [List.map_cons] at hok
    dsimp only
    rw [if_neg (by simp [hok])]
    split <;> simp

/-- Witness for C1: one run where only `a.mp4` survives the filter and the
conversion succeeds, and one run where no input survives. -/
theorem claim_C1_witness :
    (validPaths (fun q => q == "a.mp4" || q == "b.txt") ["a.mp4", "b.txt", "gone.mp4"] ≠ [] ∧
      (convert_mp4_to_gif (fun q => q == "a.mp4" || q == "b.txt") (fun _ => ⟨640, 480⟩)
        ["a.mp4", "b.txt", "gone.mp4"] none "medium" none).result = .ok) ∧
    (validPaths (fun q => q == "b.txt") ["b.txt", "gone.mp4"] = [] ∧
      convert_mp4_to_gif (fun q => q == "b.txt") (fun _ => ⟨640, 480⟩)
        ["b.txt", "gone.mp4"] none "medium" (some .write)
        = ⟨[], [], false, .errNoValidInput⟩) :=
  ⟨⟨by decide,
      (claim_C1 (fun q => q == "a.mp4" || q == "b.txt") (fun _ => ⟨640, 480⟩)
        ["a.mp4", "b.txt", "gone.mp4"] none "medium").2.2 (by decide)⟩,
    ⟨by decide,
      (claim_C1 (fun q => q == "b.txt") (fun _ => ⟨640, 480⟩)
        ["b.txt", "gone.mp4"] none "medium").2.1 (by decide) (some .write)⟩⟩

/-- C2: with no requested width and a preset scale factor, both target
dimensions are even and bounded by the native dimension times the scale
factor, and the single target computed from the first clip is the size of
every processed clip. -/
theorem claim_C2 (first : Clip) (rest : List Clip) (quality : String) (fn fd : Nat)
    (hw : 0 < first.width) (hh : 0 < first.height)
    (hq : quality = "low" ∨ quality = "medium" ∨ quality = "high")
    (hf : resolveFactor quality = (fn, fd)) :
    Even (computeTarget first none fn fd).1 ∧
    Even (computeTarget first none fn fd).2 ∧
    ((computeTarget first none fn fd).1 : ℚ) ≤ (first.width : ℚ) * ((fn : ℚ) / (fd : ℚ)) ∧
    ((computeTarget first none fn fd).2 : ℚ) ≤ (first.height : ℚ) * ((fn : ℚ) / (fd : ℚ)) ∧
    ∀ s ∈ processClips (first :: rest) none fn fd, s = computeTarget first none fn fd := by
  refine ⟨makeEven_even _, makeEven_even _, ?_, ?_, processClips_all_eq first rest none fn fd⟩
  · calc ((makeEven (first.width * fn / fd) : Nat) : ℚ)
        ≤ ((first.width * fn / fd : Nat) : ℚ) := by
          exact_mod_cast makeEven_le (first.width * fn / fd)
      _ ≤ (first.width : ℚ) * ((fn : ℚ) / (fd : ℚ)) := nat_scale_le _ _ _
  · calc ((makeEven (first.height * fn / fd) : Nat) : ℚ)
        ≤ ((first.height * fn / fd : Nat) : ℚ) := by
          exact_mod_cast makeEven_le (first.height * fn / fd)
      _ ≤ (first.height : ℚ) * ((fn : ℚ) / (fd : ℚ)) := nat_scale_le _ _ _

/-- Witness for C2: a 640×480 first clip at quality `medium` (factor 0.7)
with one further clip; the computed target is even, bounded, and shared. -/
theorem claim_C2_witness :
    (0 < (Clip.mk 640 480).width ∧ 0 < (Clip.mk 640 480).height ∧
      (("medium" : String) = "low" ∨ ("medium" : String) = "medium" ∨
        ("medium" : String) = "high") ∧
      resolveFactor "medium" = (7, 10)) ∧
    (Even (computeTarget ⟨640, 480⟩ none 7 10).1 ∧
      Even (computeTarget ⟨640, 480⟩ none 7 10).2 ∧
      ((computeTarget ⟨640, 480⟩ none 7 10).1 : ℚ) ≤ (640 : ℚ) * ((7 : ℚ) / (10 : ℚ)) ∧
      ((computeTarget ⟨640, 480⟩ none 7 10).2 : ℚ) ≤ (480 : ℚ) * ((7 : ℚ) / (10 : ℚ)) ∧
      ∀ s ∈ processClips [⟨640, 480⟩, ⟨320, 200⟩] none 7 10,
        s = computeTarget ⟨640, 480⟩ none 7 10) :=
  ⟨⟨by decide, by decide, Or.inr (Or.inl rfl), by decide⟩,
    claim_C2 ⟨640, 480⟩ [⟨320, 200⟩] "medium" 7 10 (by decide) (by decide)
      (Or.inr (Or.inl rfl)) (by decide)⟩

/-- C5: a run that extracts zero frames ends in the wrapped processing error
with exit status 1 and nothing written, and anything that is written is the
complete extracted frame sequence at the resolved output path, with infinite
repeat. -/
theorem claim_C5 (fs : String → Bool) (imgOf : String → AnimImage)
    (input : String) (output : Option String) :
    (fs input = true → extractFrames (imgOf input) = [] →
      make_gif_loop fs imgOf input output = ⟨none, .errProcessing⟩ ∧
      looperMain fs imgOf input output = 1) ∧
    (∀ w, (make_gif_loop fs imgOf input output).written = some w →
      (make_gif_loop fs imgOf input output).result = .ok ∧
      w.frames = extractFrames (imgOf input) ∧
      w.path = output.getD (derivedOutputPath input) ∧
      w.loopCount = 0) := by
  constructor
  · intro hfs hempty
    simp [make_gif_loop, looperMain, hfs, hempty]
  · intro w hw
    by_cases hfs : fs input = false
    · simp [make_gif_loop, hfs] at hw
    · rw [Bool.not_eq_false] at hfs
      by_cases hempty : extractFrames (imgOf input) = []
      · simp [make_gif_loop, hfs, hempty] at hw
      · have hrun : make_gif_loop fs imgOf input output
            = ⟨some ⟨output.getD (derivedOutputPath input), extractFrames (imgOf input), 0⟩, .ok⟩ := by
          simp [make_gif_loop, hfs, hempty]
        rw [hrun] at hw
        simp only [Option.some.injEq] at hw
        subst hw
        rw [hrun]
        exact ⟨rfl, rfl, rfl, rfl⟩

/-- Witness for C5 at a zero-frame input. -/
theorem claim_C5_witness :
    ((fun _ : String => true) "empty.gif" = true ∧
      extractFrames ((fun _ : String => AnimImage.mk "GIF" [] none) "empty.gif") = []) ∧
    make_gif_loop (fun _ => true) (fun _ => ⟨"GIF", [], none⟩) "empty.gif" none
      = ⟨none, .errProcessing⟩ ∧
    looperMain (fun _ => true) (fun _ => ⟨"GIF", [], none⟩) "empty.gif" none = 1 :=
  ⟨⟨rfl, rfl⟩,
    (claim_C5 (fun _ => true) (fun _ => ⟨"GIF", [], none⟩) "empty.gif" none).1 rfl rfl⟩

/-- C6: re-running the rewriter on an image it has written (so every frame
declares its duration and the loop count is already infinite) succeeds and
writes the same number of frames with the same duration sequence. -/
theorem claim_C6 (fs : String → Bool) (imgOf : String → AnimImage)
    (input : String) (output : Option String) (w : WrittenGif)
    (hfs : fs input = true) (himg : imgOf input = outputToImage w)
    (hne : w.frames ≠ []) :
    (make_gif_loop fs imgOf input output).result = .ok ∧
    ∃ g, (make_gif_loop fs imgOf input output).written = some g ∧
      g.frames.length = w.frames.length ∧
      g.frames.map Prod.snd = w.frames.map Prod.snd ∧
      g.loopCount = 0 := by
  have hextract : extractFrames (imgOf input) = w.frames := by
    rw [himg]
    simp [extractFrames, outputToImage, List.map_map, Function.comp_def]
  refine ⟨?_, ⟨⟨output.getD (derivedOutputPath input), w.frames, 0⟩, ?_, rfl, rfl, rfl⟩⟩ <;>
    simp [make_gif_loop, hfs, hextract, hne]

/-- Witness for C6: a written GIF with two frames of declared durations 40
and 60 ms round-trips unchanged. -/
theorem claim_C6_witness :
    ((fun _ : String => true) "x.gif" = true ∧
      (fun _ : String => outputToImage ⟨"x_looped.gif", [(5, 40), (6, 60)], 0⟩) "x.gif"
        = outputToImage ⟨"x_looped.gif", [(5, 40), (6, 60)], 0⟩ ∧
      (WrittenGif.mk "x_looped.gif" [(5, 40), (6, 60)] 0).frames ≠ []) ∧
    ((make_gif_loop (fun _ => true)
        (fun _ => outputToImage ⟨"x_looped.gif", [(5, 40), (6, 60)], 0⟩)
        "x.gif" none).result = .ok ∧
      ∃ g, (make_gif_loop (fun _ => true)
          (fun _ => outputToImage ⟨"x_looped.gif", [(5, 40), (6, 60)], 0⟩)
          "x.gif" none).written = some g ∧
        g.frames.length = (WrittenGif.mk "x_looped.gif" [(5, 40), (6, 60)] 0).frames.length ∧
        g.frames.map Prod.snd
          = (WrittenGif.mk "x_looped.gif" [(5, 40), (6, 60)] 0).frames.map Prod.snd ∧
        g.loopCount = 0) :=
  ⟨⟨rfl, rfl, by decide⟩,
    claim_C6 (fun _ => true) (fun _ => outputToImage ⟨"x_looped.gif", [(5, 40), (6, 60)], 0⟩)
      "x.gif" none ⟨"x_looped.gif", [(5, 40), (6, 60)], 0⟩ rfl rfl (by decide)⟩

end GifTools
